import Mathlib

/-!
Shallow embedding of `examples/plugins/v1/meme-generator/generate_embedded.py`.

The script is a build-time generator: it reads `templates.json`, extracts the
`id` field of each record, probes the filesystem under `assets/templates/<id>`
for `config.yml` and image files, and emits `src/embedded.rs`, a Rust module
with two match-based lookup functions, writing the file only after the whole
module text has been built.

Modelling conventions:
* Python values parsed from JSON are the inductive `Json` (numeric literals
  are modelled as integers; string escaping inside Python `repr` is not
  modelled, and no claim involves container-valued identifiers).
* `json.load` is modelled as `Option Json`: `none` is a document that fails
  to parse (`json.JSONDecodeError`), `some j` is the parsed document.
* Exceptions the script can raise are the inductive `PyExc`.
* The filesystem snapshot is the structure `FS`: `stat` gives the outcome of
  `os.stat` (used by `os.path.exists`, which returns `True` only on a
  successful stat and swallows errors), `listdir` gives `os.listdir`'s result
  in the platform's listing order, and `isfile`/`content` model attributes of
  the snapshot that the script never queries.
* The emitted Rust `match` is given its denotation by `matchLookup`
  (first arm whose pattern equals the scrutinee; the trailing wildcard arm
  yields `None`): the emitted text lines are derived from the same structured
  arm lists by `configArmLine` / `imageArmLine`.
-/

set_option autoImplicit false

namespace MemeGen

/-- JSON values as produced by `json.load`. -/
inductive Json where
  | null
  | jbool (b : Bool)
  | num (n : Int)
  | str (s : String)
  | arr (xs : List Json)
  | obj (kvs : List (String × Json))

/-- The exceptions the generator script can raise. -/
inductive PyExc where
  | jsonDecodeError
  | keyError (k : String)
  | typeError
  | osError (msg : String)
  deriving DecidableEq

/-- Python iteration (`for t in templates`): lists yield their elements,
dicts their keys, strings their characters; other values raise `TypeError`. -/
def pyIter : Json → Except PyExc (List Json)
  | .arr xs => .ok xs
  | .obj kvs => .ok (kvs.map fun kv => Json.str kv.1)
  | .str s => .ok (s.toList.map fun c => Json.str (String.singleton c))
  | _ => .error .typeError

/-- Python `repr`, as used when a non-string value is interpolated inside a
container (quote escaping is not modelled; no claim involves such values). -/
def pyRepr : Json → String
  | .null => "None"
  | .jbool true => "True"
  | .jbool false => "False"
  | .num n => toString n
  | .str s => "\x27" ++ s ++ "\x27"
  | .arr xs =>
      "[" ++ String.intercalate ", " (xs.attach.map fun x => pyRepr x.1) ++ "]"
  | .obj kvs =>
      "\x7b" ++ String.intercalate ", "
        (kvs.attach.map fun kv => "\x27" ++ kv.1.1 ++ "\x27: " ++ pyRepr kv.1.2) ++ "\x7d"
decreasing_by
  · have := List.sizeOf_lt_of_mem x.2
    simp_wf
    omega
  · have h1 := List.sizeOf_lt_of_mem kv.2
    have h2 : sizeOf kv.1.2 < sizeOf kv.1 := by
      obtain ⟨a, b⟩ := kv.1
      simp
    simp_wf
    omega

/-- Python `str`, as used by f-string interpolation: strings are inserted
verbatim, other values via `repr`-like formatting. -/
def pyStr : Json → String
  | .str s => s
  | j => pyRepr j

/-- `t[\x27id\x27]`: a dict yields the value at key `id` or raises `KeyError`;
subscripting any non-dict JSON value with a string raises `TypeError`. -/
def getId : Json → Except PyExc Json
  | .obj kvs =>
      match kvs.lookup "id" with
      | some v => .ok v
      | none => .error (.keyError "id")
  | _ => .error .typeError

/-- Left-to-right effectful map with short-circuit on the first exception:
the semantics of the list comprehension and of the generator's loops. -/
def mapExcept {α β : Type} (f : α → Except PyExc β) : List α → Except PyExc (List β)
  | [] => .ok []
  | x :: xs =>
    match f x with
    | .error e => .error e
    | .ok y =>
      match mapExcept f xs with
      | .error e => .error e
      | .ok ys => .ok (y :: ys)

/-- The manifest-loading phase of `main`:
`templates = json.load(f)` followed by `[t[\x27id\x27] for t in templates]`. -/
def loadTemplateIds (m : Option Json) : Except PyExc (List Json) :=
  match m with
  | none => .error .jsonDecodeError
  | some doc =>
    match pyIter doc with
    | .error e => .error e
    | .ok templates => mapExcept getId templates

/-- Outcome of `os.stat` on a path in the snapshot. -/
inductive StatRes where
  | ok
  | noent
  | perm
  deriving DecidableEq

/-- A filesystem snapshot. `stat` and `listdir` are the two views the script
reads; `isfile` (regular-file vs directory) and `content` (file bytes) are
part of the snapshot but are never queried by the script. -/
structure FS where
  stat : String → StatRes
  listdir : String → Except String (List String)
  isfile : String → Bool
  content : String → String

/-- `os.path.exists`: true only when `os.stat` succeeds; any `OSError`
(including permission errors) is swallowed and reported as `False`. -/
def osPathExists (fs : FS) (p : String) : Bool :=
  match fs.stat p with
  | .ok => true
  | _ => false

/-- `f\x27assets/templates/\x7btemplate_id\x7d/config.yml\x27`. -/
def configPath (s : String) : String :=
  "assets/templates/" ++ s ++ "/config.yml"

/-- `f\x27assets/templates/\x7btemplate_id\x7d\x27`. -/
def templateDir (s : String) : String :=
  "assets/templates/" ++ s

/-- Python `s.endswith(suffix)`: the suffix test on the character sequence. -/
def pyEndsWith (s suffix : String) : Bool :=
  List.isSuffixOf suffix.toList s.toList

/-- `file.endswith((\x27.jpg\x27, \x27.png\x27, \x27.gif\x27))`: true when any of
the three suffixes matches. -/
def isImage (f : String) : Bool :=
  pyEndsWith f ".jpg" || pyEndsWith f ".png" || pyEndsWith f ".gif"

/-- The Rust expression embedded as the value of a config arm. -/
def configRef (s : String) : String :=
  "include_str!(\"../assets/templates/" ++ s ++ "/config.yml\")"

/-- The Rust expression embedded as the value of an image arm. -/
def imageRef (s file : String) : String :=
  "include_bytes!(\"../assets/templates/" ++ s ++ "/" ++ file ++ "\")"

/-- The config-lookup arms, one per manifest occurrence whose `config.yml`
exists, in manifest order: key (the match pattern) paired with the embedded
content reference. -/
def configArmsOf (fs : FS) (tids : List Json) : List (String × String) :=
  tids.filterMap fun tid =>
    let s := pyStr tid
    if osPathExists fs (configPath s) then some (s, configRef s) else none

/-- The image-lookup arms contributed by one template id: if the template
directory exists, its listing is filtered by `isImage` (in listing order) and
each surviving name is keyed by the `(template_id, file)` pair; a missing
directory contributes no arms; an `OSError` from `os.listdir` propagates. -/
def imageArmsFor (fs : FS) (s : String) : Except PyExc (List ((String × String) × String)) :=
  if osPathExists fs (templateDir s) then
    match fs.listdir (templateDir s) with
    | .error msg => .error (.osError msg)
    | .ok files => .ok ((files.filter isImage).map fun f => ((s, f), imageRef s f))
  else
    .ok []

/-- Text of one emitted config arm line. -/
def configArmLine (a : String × String) : String :=
  "        \"" ++ a.1 ++ "\" => Some(" ++ a.2 ++ "),"

/-- Text of one emitted image arm line. -/
def imageArmLine (a : (String × String) × String) : String :=
  "        (\"" ++ a.1.1 ++ "\", \"" ++ a.1.2 ++ "\") => Some(" ++ a.2 ++ "),"

/-- The six fixed lines embedding `templates.json` and the font file. -/
def embedHeader : List String :=
  [ "// Embed templates.json",
    "pub const TEMPLATES_JSON: &str = include_str!(\"../templates.json\");",
    "",
    "// Embed font data",
    "pub const FONT_DATA: &[u8] = include_bytes!(\"../assets/fonts/TitilliumWeb-Black.ttf\");",
    "" ]

/-- Fixed lines opening `get_template_config`. -/
def configFnOpen : List String :=
  [ "// Function to get template config",
    "pub fn get_template_config(template_id: &str) -> Option<&\x27static str> \x7b",
    "    match template_id \x7b" ]

/-- Fixed lines closing `get_template_config`. -/
def configFnClose : List String :=
  [ "        _ => None", "    \x7d", "\x7d", "" ]

/-- Fixed lines opening `get_template_image`. -/
def imageFnOpen : List String :=
  [ "// Function to get template image",
    "pub fn get_template_image(template_id: &str, image_name: &str) -> Option<&\x27static [u8]> \x7b",
    "    match (template_id, image_name) \x7b" ]

/-- Fixed lines closing `get_template_image`. -/
def imageFnClose : List String :=
  [ "        _ => None", "    \x7d", "\x7d" ]

/-- The whole of `main` up to (but excluding) the final write: load the
manifest ids, then build the output line list in append order. Any exception
raised along the way aborts generation with that exception. -/
def generateLines (m : Option Json) (fs : FS) : Except PyExc (List String) :=
  match loadTemplateIds m with
  | .error e => .error e
  | .ok tids =>
    let cArms := configArmsOf fs tids
    match mapExcept (fun tid => imageArmsFor fs (pyStr tid)) tids with
    | .error e => .error e
    | .ok iArms =>
      .ok (embedHeader ++ configFnOpen ++ cArms.map configArmLine ++ configFnClose
            ++ imageFnOpen ++ (iArms.flatten.map imageArmLine) ++ imageFnClose)

/-- `\x27\n\x27.join(output)`: the generated module text. -/
def generate (m : Option Json) (fs : FS) : Except PyExc String :=
  (generateLines m fs).map (String.intercalate "\n")

/-- The content of `src/embedded.rs` after one invocation: the script opens
the output file only after the whole module text is built, so on any
exception the write never executes and the previous content `prev` remains. -/
def runMain (m : Option Json) (fs : FS) (prev : String) : String :=
  match generate m fs with
  | .ok out => out
  | .error _ => prev

/-- Denotation of the emitted Rust `match`: the value of the first arm whose
pattern equals the scrutinee, `none` for the trailing wildcard arm. -/
def matchLookup {α : Type} [DecidableEq α] (arms : List (α × String)) (q : α) : Option String :=
  match arms with
  | [] => none
  | a :: rest => if a.1 = q then some a.2 else matchLookup rest q

/-- Denotation of the emitted `get_template_config`. -/
def get_template_config (fs : FS) (tids : List Json) (q : String) : Option String :=
  matchLookup (configArmsOf fs tids) q

/-- Denotation of the emitted `get_template_image`, over the concatenated
image arms. -/
def get_template_image (arms : List ((String × String) × String)) (q : String × String) : Option String :=
  matchLookup arms q

/-- `True` exactly when `t[\x27id\x27]` succeeds on the record `t`. -/
def hasId (t : Json) : Bool :=
  (getId t).isOk

/-- The identifier of a record that has one. -/
def idOf : Json → Json
  | .obj kvs => ((kvs.lookup "id").getD .null)
  | _ => .null

/-! ### Helper lemmas -/

theorem except_isOk_false_iff {ε α : Type} (x : Except ε α) :
    x.isOk = false ↔ ∃ e, x = .error e := by
  cases x <;> simp [Except.isOk, Except.toBool]

theorem mapExcept_error_mem {α β : Type} (f : α → Except PyExc β) (l : List α) (e : PyExc)
    (h : mapExcept f l = .error e) : ∃ x ∈ l, f x = .error e := by
  induction l with
  | nil => simp [mapExcept] at h
  | cons hd tl ih =>
    rw [mapExcept] at h
    cases hfx : f hd with
    | error e' =>
      rw [hfx] at h
      exact ⟨hd, List.mem_cons_self hd tl, by cases h; exact hfx⟩
    | ok y =>
      rw [hfx] at h
      cases hrest : mapExcept f tl with
      | error e' =>
        rw [hrest] at h
        cases h
        obtain ⟨x, hx, hfx'⟩ := ih hrest
        exact ⟨x, List.mem_cons_of_mem hd hx, hfx'⟩
      | ok ys => rw [hrest] at h; cases h

theorem mapExcept_isOk_iff {α β : Type} (f : α → Except PyExc β) (l : List α) :
    (mapExcept f l).isOk = true ↔ ∀ x ∈ l, (f x).isOk = true := by
  induction l with
  | nil => simp [mapExcept, Except.isOk, Except.toBool]
  | cons hd tl ih =>
    rw [mapExcept]
    cases hfx : f hd with
    | error e => simp [Except.isOk, Except.toBool, hfx]
    | ok y =>
      cases hrest : mapExcept f tl with
      | error e =>
        rw [hrest] at ih
        simp [Except.isOk, Except.toBool, hfx] at ih ⊢
        obtain ⟨x, hx, hfx'⟩ := ih
        exact ⟨x, hx, hfx'⟩
      | ok ys =>
        rw [hrest] at ih
        simp [Except.isOk, Except.toBool, hfx] at ih ⊢
        intro x hx
        exact ih x hx

theorem mapExcept_ok_of_forall {α β : Type} (f : α → Except PyExc β) (g : α → β) (l : List α)
    (h : ∀ x ∈ l, f x = .ok (g x)) : mapExcept f l = .ok (l.map g) := by
  induction l with
  | nil => simp [mapExcept]
  | cons hd tl ih =>
    rw [mapExcept, h hd (List.mem_cons_self hd tl),
      ih fun x hx => h x (List.mem_cons_of_mem hd hx)]
    simp

theorem getId_eq_ok_idOf (t : Json) (h : hasId t = true) : getId t = .ok (idOf t) := by
  cases t with
  | obj kvs =>
    rw [hasId] at h
    rw [getId] at h ⊢
    rw [idOf]
    cases hl : List.lookup "id" kvs with
    | none => rw [hl] at h; simp [Except.isOk, Except.toBool] at h
    | some v => simp
  | null =>
      rw [hasId, show getId Json.null = Except.error PyExc.typeError from rfl] at h
      simp [Except.isOk, Except.toBool] at h
  | jbool b =>
      rw [hasId, show getId (Json.jbool b) = Except.error PyExc.typeError from rfl] at h
      simp [Except.isOk, Except.toBool] at h
  | num n =>
      rw [hasId, show getId (Json.num n) = Except.error PyExc.typeError from rfl] at h
      simp [Except.isOk, Except.toBool] at h
  | str s =>
      rw [hasId, show getId (Json.str s) = Except.error PyExc.typeError from rfl] at h
      simp [Except.isOk, Except.toBool] at h
  | arr xs =>
      rw [hasId, show getId (Json.arr xs) = Except.error PyExc.typeError from rfl] at h
      simp [Except.isOk, Except.toBool] at h

theorem getId_error_shape (t : Json) (e : PyExc) (h : getId t = .error e) :
    e = .keyError "id" ∨ e = .typeError := by
  cases t with
  | obj kvs =>
    rw [getId] at h
    cases hl : List.lookup "id" kvs with
    | none => rw [hl] at h; cases h; exact Or.inl rfl
    | some v => rw [hl] at h; cases h
  | null =>
      rw [show getId Json.null = Except.error PyExc.typeError from rfl] at h
      cases h; exact Or.inr rfl
  | jbool b =>
      rw [show getId (Json.jbool b) = Except.error PyExc.typeError from rfl] at h
      cases h; exact Or.inr rfl
  | num n =>
      rw [show getId (Json.num n) = Except.error PyExc.typeError from rfl] at h
      cases h; exact Or.inr rfl
  | str s =>
      rw [show getId (Json.str s) = Except.error PyExc.typeError from rfl] at h
      cases h; exact Or.inr rfl
  | arr xs =>
      rw [show getId (Json.arr xs) = Except.error PyExc.typeError from rfl] at h
      cases h; exact Or.inr rfl

theorem matchLookup_eq_none {α : Type} [DecidableEq α] (arms : List (α × String)) (q : α)
    (h : ∀ a ∈ arms, a.1 ≠ q) : matchLookup arms q = none := by
  induction arms with
  | nil => rfl
  | cons a rest ih =>
    rw [matchLookup]
    rw [if_neg (h a (List.mem_cons_self a rest))]
    exact ih fun a' ha' => h a' (List.mem_cons_of_mem a ha')

theorem configArmsOf_cons (fs : FS) (tid : Json) (tl : List Json) :
    configArmsOf fs (tid :: tl) =
      (if osPathExists fs (configPath (pyStr tid)) then
        (pyStr tid, configRef (pyStr tid)) :: configArmsOf fs tl
      else configArmsOf fs tl) := by
  rw [configArmsOf, List.filterMap_cons]
  split
  · next hsplit =>
      simp only at hsplit
      rw [if_neg (by intro hcond; rw [if_pos hcond] at hsplit; cases hsplit)]
      rfl
  · next v hsplit =>
      simp only at hsplit
      by_cases hcond : osPathExists fs (configPath (pyStr tid)) = true
      · rw [if_pos hcond] at hsplit ⊢
        cases hsplit
        rfl
      · rw [if_neg hcond] at hsplit
        cases hsplit

theorem configArms_mem_shape (fs : FS) (tids : List Json) (a : String × String)
    (h : a ∈ configArmsOf fs tids) :
    osPathExists fs (configPath a.1) = true ∧ a.2 = configRef a.1 := by
  induction tids with
  | nil => simp [configArmsOf] at h
  | cons hd tl ih =>
    rw [configArmsOf_cons] at h
    by_cases hcond : osPathExists fs (configPath (pyStr hd)) = true
    · rw [if_pos hcond] at h
      rcases List.mem_cons.mp h with heq | hmem
      · subst heq; exact ⟨hcond, rfl⟩
      · exact ih hmem
    · rw [if_neg hcond] at h
      exact ih h

theorem matchLookup_configArms_none (fs : FS) (tids : List Json) (q : String)
    (h : osPathExists fs (configPath q) = false) :
    matchLookup (configArmsOf fs tids) q = none := by
  apply matchLookup_eq_none
  intro a ha heq
  have := (configArms_mem_shape fs tids a ha).1
  rw [heq, h] at this
  cases this

theorem matchLookup_configArms_some (fs : FS) (tids : List Json) (q : String)
    (hex : osPathExists fs (configPath q) = true)
    (hmem : ∃ tid ∈ tids, pyStr tid = q) :
    matchLookup (configArmsOf fs tids) q = some (configRef q) := by
  induction tids with
  | nil => simp at hmem
  | cons hd tl ih =>
    rw [configArmsOf_cons]
    by_cases hq : pyStr hd = q
    · rw [hq, if_pos hex, matchLookup, if_pos rfl]
    · have hmem' : ∃ tid ∈ tl, pyStr tid = q := by
        obtain ⟨tid, htid, hptid⟩ := hmem
        rcases List.mem_cons.mp htid with heq | hmem''
        · exact absurd (heq ▸ hptid) hq
        · exact ⟨tid, hmem'', hptid⟩
      by_cases hcond : osPathExists fs (configPath (pyStr hd)) = true
      · rw [if_pos hcond, matchLookup, if_neg hq]
        exact ih hmem'
      · rw [if_neg hcond]
        exact ih hmem'

theorem pyIter_error_shape (doc : Json) (e : PyExc) (h : pyIter doc = .error e) :
    e = .typeError := by
  cases doc with
  | arr xs =>
      rw [show pyIter (Json.arr xs) = Except.ok xs from rfl] at h; cases h
  | obj kvs =>
      rw [show pyIter (Json.obj kvs)
        = Except.ok (kvs.map fun kv => Json.str kv.1) from rfl] at h
      cases h
  | str s =>
      rw [show pyIter (Json.str s)
        = Except.ok (s.toList.map fun c => Json.str (String.singleton c)) from rfl] at h
      cases h
  | null =>
      rw [show pyIter Json.null = Except.error PyExc.typeError from rfl] at h
      cases h; rfl
  | jbool b =>
      rw [show pyIter (Json.jbool b) = Except.error PyExc.typeError from rfl] at h
      cases h; rfl
  | num n =>
      rw [show pyIter (Json.num n) = Except.error PyExc.typeError from rfl] at h
      cases h; rfl

theorem loadTemplateIds_error_shape (m : Option Json) (e : PyExc)
    (h : loadTemplateIds m = .error e) :
    e = .jsonDecodeError ∨ e = .keyError "id" ∨ e = .typeError := by
  cases m with
  | none =>
      rw [show loadTemplateIds none = Except.error PyExc.jsonDecodeError from rfl] at h
      cases h; exact Or.inl rfl
  | some doc =>
      rw [loadTemplateIds] at h
      cases hp : pyIter doc with
      | error e' =>
          rw [hp] at h
          cases h
          exact Or.inr (Or.inr (pyIter_error_shape doc _ hp))
      | ok l =>
          rw [hp] at h
          obtain ⟨x, _, hgx⟩ := mapExcept_error_mem _ _ _ h
          rcases getId_error_shape x e hgx with h1 | h1
          · exact Or.inr (Or.inl h1)
          · exact Or.inr (Or.inr h1)

theorem generateLines_error_load (m : Option Json) (fs : FS) (e : PyExc)
    (h : loadTemplateIds m = .error e) : generateLines m fs = .error e := by
  rw [generateLines, h]

theorem generateLines_eq (m : Option Json) (fs : FS) (tids : List Json)
    (hl : loadTemplateIds m = .ok tids) :
    generateLines m fs =
      match mapExcept (fun tid => imageArmsFor fs (pyStr tid)) tids with
      | .error e => .error e
      | .ok iArms =>
        .ok (embedHeader ++ configFnOpen ++ (configArmsOf fs tids).map configArmLine
              ++ configFnClose ++ imageFnOpen ++ (iArms.flatten.map imageArmLine)
              ++ imageFnClose) := by
  rw [generateLines, hl]

theorem imageArmsFor_error_iff (fs : FS) (s : String) (e : PyExc) :
    imageArmsFor fs s = .error e ↔
      ∃ msg, e = .osError msg ∧ osPathExists fs (templateDir s) = true ∧
        fs.listdir (templateDir s) = .error msg := by
  rw [imageArmsFor]
  by_cases hex : osPathExists fs (templateDir s) = true
  · rw [if_pos hex]
    cases hl : fs.listdir (templateDir s) with
    | error msg =>
        constructor
        · intro h; cases h; exact ⟨msg, rfl, hex, rfl⟩
        · rintro ⟨msg', hmsg, _, hl'⟩
          cases hl'
          rw [hmsg]
    | ok files =>
        constructor
        · intro h; cases h
        · rintro ⟨msg', _, _, hl'⟩
          cases hl'
  · rw [if_neg hex]
    constructor
    · intro h; cases h
    · rintro ⟨msg', _, hex2, _⟩
      exact absurd hex2 hex

/-! ### Concrete snapshots and manifests used as witnesses -/

/-- A snapshot containing no paths at all. -/
def fsEmpty : FS :=
  { stat := fun _ => .noent
    listdir := fun _ => .error "ENOENT"
    isfile := fun _ => false
    content := fun _ => "" }

/-- A snapshot for the `drake` entity: its directory holds `config.yml`,
`a.txt`, `a.png`, and a subdirectory named `sub.png`. -/
def fsDrake : FS :=
  { stat := fun p =>
      if p = templateDir "drake" ∨ p = configPath "drake" then .ok else .noent
    listdir := fun p =>
      if p = templateDir "drake" then .ok ["a.txt", "a.png", "sub.png"]
      else .error "ENOENT"
    isfile := fun p => if p = templateDir "drake" ++ "/sub.png" then false else true
    content := fun _ => "" }

/-- A manifest with the single entity `drake`. -/
def mDrake : Option Json := some (Json.arr [Json.obj [("id", Json.str "drake")]])

/-! ### Claims -/

/-- Claim C3: for every run that fails with any fatal error (manifest parse or
schema error, filesystem error), the generator aborts before the output file
is written, so a previously existing output file at the target path is left
byte-for-byte unchanged. -/
theorem c3_no_partial_write (m : Option Json) (fs : FS) (prev : String) (e : PyExc)
    (h : generate m fs = .error e) : runMain m fs prev = prev := by
  rw [runMain, h]

theorem c3_no_partial_write_witness :
    generate none fsEmpty = .error .jsonDecodeError ∧
      runMain none fsEmpty "previous output" = "previous output" :=
  ⟨rfl, c3_no_partial_write none fsEmpty "previous output" .jsonDecodeError rfl⟩

/-- Claim C7: for every entity whose directory exists and lists successfully,
exactly the immediate children whose names end in `.jpg`, `.png` or `.gif`
are surfaced as image arms, each mapped to its file name and its full-path
content reference, in listing order. -/
theorem c7_extension_filter (fs : FS) (s : String) (files : List String)
    (hex : osPathExists fs (templateDir s) = true)
    (hls : fs.listdir (templateDir s) = .ok files) :
    imageArmsFor fs s =
      .ok ((files.filter isImage).map fun f => ((s, f), imageRef s f)) := by
  rw [imageArmsFor, if_pos hex, hls]

theorem c7_extension_filter_witness :
    osPathExists fsDrake (templateDir "drake") = true ∧
    fsDrake.listdir (templateDir "drake") = .ok ["a.txt", "a.png", "sub.png"] ∧
    imageArmsFor fsDrake "drake" =
      .ok [(("drake", "a.png"), imageRef "drake" "a.png"),
           (("drake", "sub.png"), imageRef "drake" "sub.png")] :=
  ⟨rfl, rfl, c7_extension_filter fsDrake "drake" ["a.txt", "a.png", "sub.png"] rfl rfl⟩

/-- Claim C10: independently of the manifest's content and of which assets
resolve, every generated module opens with the two fixed constant embeds
(the whole manifest file as a string and the font file as bytes), before the
two lookup functions. -/
theorem c10_fixed_embeds (m : Option Json) (fs : FS) (lines : List String)
    (h : generateLines m fs = .ok lines) :
    ∃ rest, lines = embedHeader ++ configFnOpen ++ rest := by
  cases hl : loadTemplateIds m with
  | error e => rw [generateLines_error_load m fs e hl] at h; cases h
  | ok tids =>
    rw [generateLines_eq m fs tids hl] at h
    cases hm : mapExcept (fun tid => imageArmsFor fs (pyStr tid)) tids with
    | error e => rw [hm] at h; cases h
    | ok iArms =>
      rw [hm] at h
      cases h
      exact ⟨_, rfl⟩

theorem c10_fixed_embeds_witness :
    generateLines (some (Json.arr [])) fsEmpty =
      .ok (embedHeader ++ configFnOpen
            ++ (configFnClose ++ imageFnOpen ++ imageFnClose)) ∧
    ∃ rest,
      (embedHeader ++ configFnOpen ++ (configFnClose ++ imageFnOpen ++ imageFnClose)
        : List String) = embedHeader ++ configFnOpen ++ rest :=
  ⟨rfl,
   c10_fixed_embeds (some (Json.arr [])) fsEmpty
     (embedHeader ++ configFnOpen ++ (configFnClose ++ imageFnOpen ++ imageFnClose))
     rfl⟩

/-- Claim C9 (implicit): the image filter tests only the name suffix of each
directory entry, with no regular-file check: generation is independent of the
snapshot's `isfile` attribute, and every listed child with a matching
suffix — a subdirectory or hidden entry included — contributes an image arm. -/
theorem c9_suffix_only :
    (∀ (m : Option Json) (fs : FS) (i : String → Bool),
        generate m { fs with isfile := i } = generate m fs)
  ∧ (∀ (fs : FS) (s : String) (files : List String) (f : String),
        osPathExists fs (templateDir s) = true →
        fs.listdir (templateDir s) = .ok files →
        f ∈ files → isImage f = true →
        ∃ arms, imageArmsFor fs s = .ok arms ∧ ((s, f), imageRef s f) ∈ arms) := by
  constructor
  · intro m fs i
    cases fs
    rfl
  · intro fs s files f hex hls hmem him
    refine ⟨(files.filter isImage).map fun g => ((s, g), imageRef s g), ?_, ?_⟩
    · rw [imageArmsFor, if_pos hex, hls]
    · exact List.mem_map_of_mem _ (List.mem_filter.mpr ⟨hmem, him⟩)

theorem c9_suffix_only_witness :
    fsDrake.isfile (templateDir "drake" ++ "/sub.png") = false ∧
    generate mDrake { fsDrake with isfile := fun _ => true } = generate mDrake fsDrake ∧
    ∃ arms, imageArmsFor fsDrake "drake" = .ok arms ∧
      (("drake", "sub.png"), imageRef "drake" "sub.png") ∈ arms :=
  ⟨rfl, c9_suffix_only.1 mDrake fsDrake (fun _ => true),
   c9_suffix_only.2 fsDrake "drake" ["a.txt", "a.png", "sub.png"] "sub.png"
     rfl rfl (by simp) rfl⟩

/-- Claim C5: for every entity identifier in the manifest, the emitted
`get_template_config` returns the embedded reference to
`assets/templates/<id>/config.yml` exactly when that file exists in the
snapshot, and `none` otherwise; only existence is consulted — generation
never reads any file content from the snapshot. -/
theorem c5_config_presence :
    (∀ (fs : FS) (tids : List Json) (tid : Json), tid ∈ tids →
        get_template_config fs tids (pyStr tid) =
          (if osPathExists fs (configPath (pyStr tid)) then
            some (configRef (pyStr tid))
          else none))
  ∧ (∀ (m : Option Json) (fs : FS) (c : String → String),
        generate m { fs with content := c } = generate m fs) := by
  constructor
  · intro fs tids tid hmem
    by_cases hex : osPathExists fs (configPath (pyStr tid)) = true
    · rw [if_pos hex]
      exact matchLookup_configArms_some fs tids (pyStr tid) hex ⟨tid, hmem, rfl⟩
    · rw [if_neg hex]
      have hex' : osPathExists fs (configPath (pyStr tid)) = false := by
        revert hex
        cases osPathExists fs (configPath (pyStr tid)) <;> simp
      exact matchLookup_configArms_none fs tids (pyStr tid) hex'
  · intro m fs c
    cases fs
    rfl

theorem c5_config_presence_witness :
    get_template_config fsDrake [Json.str "drake", Json.str "doge"] "drake"
      = some (configRef "drake") ∧
    get_template_config fsDrake [Json.str "drake", Json.str "doge"] "doge" = none :=
  ⟨c5_config_presence.1 fsDrake [Json.str "drake", Json.str "doge"]
     (Json.str "drake") (by simp),
   c5_config_presence.1 fsDrake [Json.str "drake", Json.str "doge"]
     (Json.str "doge") (by simp)⟩

/-- Claim C6: the emitted lookups are total over the whole key space: any
identifier without a config arm resolves to `none` through
`get_template_config`, and any (identifier, file name) pair without an image
arm resolves to `none` through `get_template_image`; both are Option-valued
functions, so neither lookup can fail on any key. -/
theorem c6_totality :
    (∀ (fs : FS) (tids : List Json) (q : String),
        q ∉ (configArmsOf fs tids).map Prod.fst →
        get_template_config fs tids q = none)
  ∧ (∀ (arms : List ((String × String) × String)) (q : String × String),
        q ∉ arms.map Prod.fst →
        get_template_image arms q = none) := by
  constructor
  · intro fs tids q hq
    exact matchLookup_eq_none _ _ fun a ha heq => hq (heq ▸ List.mem_map_of_mem Prod.fst ha)
  · intro arms q hq
    exact matchLookup_eq_none _ _ fun a ha heq => hq (heq ▸ List.mem_map_of_mem Prod.fst ha)

theorem c6_totality_witness :
    ("zzz" ∉ (configArmsOf fsDrake [Json.str "drake"]).map Prod.fst) ∧
    get_template_config fsDrake [Json.str "drake"] "zzz" = none ∧
    get_template_image [(("drake", "a.png"), imageRef "drake" "a.png")]
      ("drake", "2.jpg") = none :=
  ⟨by decide,
   c6_totality.1 fsDrake [Json.str "drake"] "zzz" (by decide),
   c6_totality.2 [(("drake", "a.png"), imageRef "drake" "a.png")]
     ("drake", "2.jpg") (by decide)⟩

/-- Claim C4: the Loader fails with the parse error exactly when the manifest
source is not well-formed structured data; over a well-formed list-of-records
document it fails with a schema error (the `KeyError`/`TypeError` raised by
`t[\x27id\x27]`) exactly when some record lacks the identifier field; and when
every record has an identifier it returns the identifiers in document order. -/
theorem c4_loader :
    (∀ m : Option Json, loadTemplateIds m = .error .jsonDecodeError ↔ m = none)
  ∧ (∀ ts : List Json,
      (∃ e, loadTemplateIds (some (.arr ts)) = .error e ∧
        (e = .keyError "id" ∨ e = .typeError)) ↔ ∃ t ∈ ts, hasId t = false)
  ∧ (∀ ts : List Json, (∀ t ∈ ts, hasId t = true) →
      loadTemplateIds (some (.arr ts)) = .ok (ts.map idOf)) := by
  refine ⟨?_, ?_, ?_⟩
  · intro m
    constructor
    · intro h
      cases m with
      | none => rfl
      | some doc =>
        exfalso
        rw [loadTemplateIds] at h
        cases hp : pyIter doc with
        | error e' =>
            rw [hp] at h
            cases h
            exact absurd (pyIter_error_shape doc _ hp) (by simp)
        | ok l =>
            rw [hp] at h
            obtain ⟨x, _, hgx⟩ := mapExcept_error_mem _ _ _ h
            rcases getId_error_shape x _ hgx with h2 | h2 <;> cases h2
    · rintro rfl
      rfl
  · intro ts
    have hdef : loadTemplateIds (some (Json.arr ts)) = mapExcept getId ts := rfl
    rw [hdef]
    constructor
    · rintro ⟨e, he, _⟩
      obtain ⟨x, hx, hgx⟩ := mapExcept_error_mem _ _ _ he
      exact ⟨x, hx, by rw [hasId, hgx]; rfl⟩
    · rintro ⟨t, ht, hft⟩
      cases hres : mapExcept getId ts with
      | ok l =>
          exfalso
          have hall := (mapExcept_isOk_iff getId ts).mp (by rw [hres]; rfl)
          have := hall t ht
          rw [hasId] at hft
          rw [hft] at this
          cases this
      | error e =>
          obtain ⟨x, _, hgx⟩ := mapExcept_error_mem _ _ _ hres
          exact ⟨e, rfl, getId_error_shape x e hgx⟩
  · intro ts h
    have hdef : loadTemplateIds (some (Json.arr ts)) = mapExcept getId ts := rfl
    rw [hdef]
    exact mapExcept_ok_of_forall getId idOf ts fun t ht => getId_eq_ok_idOf t (h t ht)

theorem c4_loader_witness :
    (∀ t ∈ [Json.obj [("id", Json.str "drake")], Json.obj [("id", Json.str "doge")]],
      hasId t = true) ∧
    loadTemplateIds (some (Json.arr
        [Json.obj [("id", Json.str "drake")], Json.obj [("id", Json.str "doge")]]))
      = .ok [Json.str "drake", Json.str "doge"] :=
  ⟨by decide,
   c4_loader.2.2 [Json.obj [("id", Json.str "drake")], Json.obj [("id", Json.str "doge")]]
     (by decide)⟩

/-- Shared `stat` view: only `drake`'s directory exists. -/
def statDrakeDir : String → StatRes := fun p =>
  if p = templateDir "drake" then .ok else .noent

/-- Snapshot whose platform listing of `drake` is `a.png` before `b.png`. -/
def fsOrderA : FS :=
  { stat := statDrakeDir
    listdir := fun p =>
      if p = templateDir "drake" then .ok ["a.png", "b.png"] else .error "ENOENT"
    isfile := fun _ => true
    content := fun _ => "" }

/-- The same file set, but the platform lists `b.png` before `a.png`. -/
def fsOrderB : FS :=
  { fsOrderA with
    listdir := fun p =>
      if p = templateDir "drake" then .ok ["b.png", "a.png"] else .error "ENOENT" }

set_option maxRecDepth 100000 in
/-- Claim C1 counterexample: two snapshots agreeing on `stat` whose directory
listings hold the same file set in a different order produce different
generated bytes — the Resolver does not impose a lexicographic (or any)
order of its own on the image entries. -/
theorem c1_counterexample :
    fsOrderA.stat = fsOrderB.stat ∧
    fsOrderA.listdir (templateDir "drake") = .ok ["a.png", "b.png"] ∧
    fsOrderB.listdir (templateDir "drake") = .ok ["b.png", "a.png"] ∧
    (["a.png", "b.png"] : List String).Perm ["b.png", "a.png"] ∧
    generate mDrake fsOrderA ≠ generate mDrake fsOrderB := by
  refine ⟨rfl, rfl, rfl, by decide, ?_⟩
  intro h
  have h2 : ((generate mDrake fsOrderA).toOption.getD "")
      = ((generate mDrake fsOrderB).toOption.getD "") :=
    congrArg (fun x => (Except.toOption x).getD "") h
  revert h2
  decide

/-- Claim C1 (amended): for a fixed manifest and a fixed snapshot — the
`stat` view together with the `listdir` view, listing order included — the
output is uniquely determined (in particular it does not depend on the
snapshot's `isfile` or `content` attributes); the Resolver emits image
entries in the platform's listing order without re-sorting, so snapshots
differing only in listing order may produce different bytes. -/
theorem c1_amended (m : Option Json) (fs fs' : FS)
    (hs : fs.stat = fs'.stat) (hl : fs.listdir = fs'.listdir) :
    generate m fs = generate m fs' := by
  obtain ⟨s1, l1, i1, c1⟩ := fs
  obtain ⟨s2, l2, i2, c2⟩ := fs'
  have hs' : s1 = s2 := hs
  have hl' : l1 = l2 := hl
  subst hs'
  subst hl'
  rfl

theorem c1_amended_witness :
    generate mDrake fsOrderA
      = generate mDrake { fsOrderA with isfile := fun _ => false } :=
  c1_amended mDrake fsOrderA { fsOrderA with isfile := fun _ => false } rfl rfl

/-- A manifest naming the entity `drake` twice. -/
def mDup : Option Json :=
  some (Json.arr [Json.obj [("id", Json.str "drake")], Json.obj [("id", Json.str "drake")]])

/-- Snapshot where `drake` has a config file and an empty directory. -/
def fsDup : FS :=
  { stat := fun p =>
      if p = configPath "drake" ∨ p = templateDir "drake" then .ok else .noent
    listdir := fun p => if p = templateDir "drake" then .ok [] else .error "ENOENT"
    isfile := fun _ => true
    content := fun _ => "" }

/-- Claim C2 counterexample: on a manifest with a duplicated identifier whose
configuration exists, the generator succeeds (there is no `EmissionError`
anywhere in the program), emits two colliding config arms, and writes the
output — the previous output file content is replaced. -/
theorem c2_counterexample :
    loadTemplateIds mDup = .ok [Json.str "drake", Json.str "drake"] ∧
    (configArmsOf fsDup [Json.str "drake", Json.str "drake"]).map Prod.fst
      = ["drake", "drake"] ∧
    (generate mDup fsDup).isOk = true ∧
    runMain mDup fsDup "" ≠ "" := by
  refine ⟨rfl, rfl, rfl, ?_⟩
  decide

/-- Claim C2 (amended): the generator performs no collision detection at all:
the Loader preserves duplicate identifiers (one output entry per manifest
record), and the Emitter emits one config arm per occurrence whose
configuration file exists — duplicates included, never failing; generation
proceeds and the output is written. -/
theorem c2_amended :
    (∀ (ts ids : List Json), mapExcept getId ts = .ok ids → ids.length = ts.length)
  ∧ (∀ (fs : FS) (tids : List Json),
      (configArmsOf fs tids).map Prod.fst =
        (tids.map pyStr).filter fun s => osPathExists fs (configPath s)) := by
  constructor
  · intro ts ids h
    induction ts generalizing ids with
    | nil => cases h; rfl
    | cons hd tl ih =>
      rw [mapExcept] at h
      cases hf : getId hd with
      | error e => rw [hf] at h; cases h
      | ok y =>
        rw [hf] at h
        cases hr : mapExcept getId tl with
        | error e => rw [hr] at h; cases h
        | ok ys =>
          rw [hr] at h
          cases h
          simp [ih ys hr]
  · intro fs tids
    induction tids with
    | nil => rfl
    | cons hd tl ih =>
      rw [configArmsOf_cons, List.map_cons, List.filter_cons]
      by_cases hc : osPathExists fs (configPath (pyStr hd)) = true
      · rw [if_pos hc, if_pos hc, List.map_cons, ih]
      · have hc' : osPathExists fs (configPath (pyStr hd)) = false := by
          revert hc
          cases osPathExists fs (configPath (pyStr hd)) <;> simp
        rw [if_neg hc, if_neg (by simp [hc']), ih]

theorem c2_amended_witness :
    mapExcept getId
        [Json.obj [("id", Json.str "drake")], Json.obj [("id", Json.str "drake")]]
      = .ok [Json.str "drake", Json.str "drake"] ∧
    ([Json.str "drake", Json.str "drake"] : List Json).length
      = ([Json.obj [("id", Json.str "drake")], Json.obj [("id", Json.str "drake")]]
          : List Json).length :=
  ⟨rfl,
   c2_amended.1
     [Json.obj [("id", Json.str "drake")], Json.obj [("id", Json.str "drake")]]
     [Json.str "drake", Json.str "drake"] rfl⟩

/-- Snapshot where probing `drake`'s config file fails with a permission
error at the `os.stat` level, while the directory itself exists and lists. -/
def fsPerm : FS :=
  { stat := fun p =>
      if p = configPath "drake" then .perm
      else if p = templateDir "drake" then .ok
      else .noent
    listdir := fun p => if p = templateDir "drake" then .ok ["1.jpg"] else .error "ENOENT"
    isfile := fun _ => true
    content := fun _ => "" }

/-- Claim C8 counterexample: a permission error while probing an entity's
config file does not fail the run: `os.path.exists` swallows the `OSError`
and the config is silently treated as absent, so the generator succeeds with
no `FilesystemError`. -/
theorem c8_counterexample :
    fsPerm.stat (configPath "drake") = .perm ∧
    (generate mDrake fsPerm).isOk = true ∧
    get_template_config fsPerm [Json.str "drake"] "drake" = none := by
  exact ⟨rfl, rfl, rfl⟩

/-- Claim C8 (amended): generation fails with an OS error exactly when some
manifest entity's directory passes the existence probe but listing it raises
an I/O error; I/O errors during the existence probes themselves (entity
directory or config file) are swallowed by `os.path.exists` and reported as
absence, and a missing entity directory silently yields no image arms. -/
theorem c8_amended :
    (∀ (m : Option Json) (fs : FS),
      (∃ p, generateLines m fs = .error (.osError p)) ↔
        (∃ tids, loadTemplateIds m = .ok tids ∧ ∃ tid ∈ tids,
          osPathExists fs (templateDir (pyStr tid)) = true ∧
          (fs.listdir (templateDir (pyStr tid))).isOk = false))
  ∧ (∀ (fs : FS) (s : String), osPathExists fs (templateDir s) = false →
      imageArmsFor fs s = .ok []) := by
  constructor
  · intro m fs
    constructor
    · rintro ⟨p, h⟩
      cases hl : loadTemplateIds m with
      | error e =>
          rw [generateLines_error_load m fs e hl] at h
          cases h
          rcases loadTemplateIds_error_shape m _ hl with h1 | h1 | h1 <;> cases h1
      | ok tids =>
          rw [generateLines_eq m fs tids hl] at h
          cases hm : mapExcept (fun tid => imageArmsFor fs (pyStr tid)) tids with
          | ok iArms => rw [hm] at h; cases h
          | error e =>
              rw [hm] at h
              cases h
              obtain ⟨tid, htid, hfx⟩ := mapExcept_error_mem _ _ _ hm
              obtain ⟨msg, hmsg, hex, hld⟩ := (imageArmsFor_error_iff fs (pyStr tid) _).mp hfx
              refine ⟨tids, rfl, tid, htid, hex, ?_⟩
              rw [hld]
              rfl
    · rintro ⟨tids, hl, tid, htid, hex, hnotok⟩
      obtain ⟨msg, hmsg⟩ := (except_isOk_false_iff _).mp hnotok
      have hfail : imageArmsFor fs (pyStr tid) = .error (.osError msg) :=
        (imageArmsFor_error_iff fs (pyStr tid) _).mpr ⟨msg, rfl, hex, hmsg⟩
      cases hm : mapExcept (fun tid => imageArmsFor fs (pyStr tid)) tids with
      | ok iArms =>
          exfalso
          have hall := (mapExcept_isOk_iff
            (fun tid => imageArmsFor fs (pyStr tid)) tids).mp (by rw [hm]; rfl)
          have := hall tid htid
          rw [hfail] at this
          cases this
      | error e =>
          obtain ⟨x, _, hgx⟩ := mapExcept_error_mem _ _ _ hm
          obtain ⟨msg', hmsg', _, _⟩ := (imageArmsFor_error_iff fs (pyStr x) _).mp hgx
          refine ⟨msg', ?_⟩
          rw [generateLines_eq m fs tids hl, hm, hmsg']
  · intro fs s h
    rw [imageArmsFor, if_neg (by rw [h]; simp)]

theorem c8_amended_witness :
    osPathExists fsEmpty (templateDir "ghost") = false ∧
    imageArmsFor fsEmpty "ghost" = .ok [] :=
  ⟨rfl, c8_amended.2 fsEmpty "ghost" rfl⟩

end MemeGen
